import Mathlib

/-!
Verification development for the tweets-research-agent repository.

We give a shallow embedding of the parts of the code relevant to its
behavioural specification: the JSON recovery routine of
`grok_client.GrokClient.parse_json_response`, the score combination of
`retrieval.HybridRetriever.hybrid_search`, the deduplicating result
merge of `agent.AgenticResearchAgent.execute` and of the refine loop,
and the workflow state machine of
`agent.AgenticResearchAgent.run_workflow` together with its step
executors (validate_results, analyze, evaluate_for_replan, refine,
critique, summarize).  Oracle and retrieval behaviour is supplied by an
environment parameter, so theorems quantify over every possible oracle
answer, including failures and malformed (non-dict) output.
-/

mutual

/-- JSON values as produced by Python `json.loads`.  Numbers are kept as
exact rationals; the `nonfinite` constructor records the special
literals (`NaN`, `Infinity`, `-Infinity`) that Python's decoder accepts
by default.  Arrays and objects use the mutually defined list types so
that decidable equality is available. -/
inductive JVal where
  | null : JVal
  | bool : Bool → JVal
  | num : ℚ → JVal
  | nonfinite : String → JVal
  | str : String → JVal
  | arr : JList → JVal
  | obj : JMembers → JVal
deriving DecidableEq

/-- A list of JSON values (array contents). -/
inductive JList where
  | nil : JList
  | cons : JVal → JList → JList
deriving DecidableEq

/-- An association list of JSON object members, in source order. -/
inductive JMembers where
  | nil : JMembers
  | cons : String → JVal → JMembers → JMembers
deriving DecidableEq

end

/-- JSON whitespace characters (the set accepted by Python's decoder). -/
def jsonWs (c : Char) : Bool :=
  c = ' ' || c = '\t' || c = '\n' || c = '\r'

/-- Value of a hexadecimal digit. -/
def hexDigit (c : Char) : Option Nat :=
  if '0' ≤ c ∧ c ≤ '9' then some (c.toNat - 48)
  else if 'a' ≤ c ∧ c ≤ 'f' then some (c.toNat - 87)
  else if 'A' ≤ c ∧ c ≤ 'F' then some (c.toNat - 55)
  else none

/-- Decode a JSON string body (the characters after the opening quote),
returning the decoded characters and the rest of the input after the
closing quote. -/
def parseStringBody : Nat → List Char → Option (List Char × List Char)
  | 0, _ => none
  | _ + 1, [] => none
  | fuel + 1, c :: rest =>
    if c = '"' then some ([], rest)
    else if c = '\\' then
      match rest with
      | [] => none
      | e :: rest2 =>
        if e = '"' then
          (parseStringBody fuel rest2).map (fun p => ('"' :: p.1, p.2))
        else if e = '\\' then
          (parseStringBody fuel rest2).map (fun p => ('\\' :: p.1, p.2))
        else if e = '/' then
          (parseStringBody fuel rest2).map (fun p => ('/' :: p.1, p.2))
        else if e = 'b' then
          (parseStringBody fuel rest2).map (fun p => (Char.ofNat 8 :: p.1, p.2))
        else if e = 'f' then
          (parseStringBody fuel rest2).map (fun p => (Char.ofNat 12 :: p.1, p.2))
        else if e = 'n' then
          (parseStringBody fuel rest2).map (fun p => ('\n' :: p.1, p.2))
        else if e = 'r' then
          (parseStringBody fuel rest2).map (fun p => ('\r' :: p.1, p.2))
        else if e = 't' then
          (parseStringBody fuel rest2).map (fun p => ('\t' :: p.1, p.2))
        else if e = 'u' then
          match rest2 with
          | h1 :: h2 :: h3 :: h4 :: rest3 =>
            match hexDigit h1, hexDigit h2, hexDigit h3, hexDigit h4 with
            | some a, some b, some c2, some d2 =>
              (parseStringBody fuel rest3).map
                (fun p => (Char.ofNat (((a * 16 + b) * 16 + c2) * 16 + d2) :: p.1, p.2))
            | _, _, _, _ => none
          | _ => none
        else none
    else if c.toNat < 32 then none
    else (parseStringBody fuel rest).map (fun p => (c :: p.1, p.2))

/-- Numeric value of a decimal digit character. -/
def digitVal (c : Char) : Nat := c.toNat - 48

/-- Split off a maximal run of decimal digits. -/
def takeDigits (cs : List Char) : List Char × List Char :=
  (cs.takeWhile Char.isDigit, cs.dropWhile Char.isDigit)

/-- Natural number denoted by a digit run. -/
def digitsToNat (ds : List Char) : Nat :=
  ds.foldl (fun n c => n * 10 + digitVal c) 0

/-- Apply an optional leading minus sign. -/
def signApply (neg : Bool) (q : ℚ) : ℚ := if neg then -q else q

/-- Parse the optional exponent part of a JSON number and finish it. -/
def afterFrac (neg : Bool) (mant : ℚ) (cs : List Char) : Option (ℚ × List Char) :=
  match cs with
  | e :: t =>
    if e = 'e' ∨ e = 'E' then
      let st : Int × List Char :=
        match t with
        | '+' :: r => (1, r)
        | '-' :: r => (-1, r)
        | _ => (1, t)
      let ds := takeDigits st.2
      if ds.1 = [] then none
      else some (signApply neg (mant * (10 : ℚ) ^ (st.1 * (digitsToNat ds.1 : Int))), ds.2)
    else some (signApply neg mant, cs)
  | [] => some (signApply neg mant, [])

/-- Parse the optional fraction part of a JSON number after the integer
part `ip`. -/
def afterInt (neg : Bool) (ip : Nat) (cs : List Char) : Option (ℚ × List Char) :=
  match cs with
  | '.' :: t =>
    let ds := takeDigits t
    if ds.1 = [] then none
    else afterFrac neg ((ip : ℚ) + (digitsToNat ds.1 : ℚ) / (10 : ℚ) ^ ds.1.length) ds.2
  | _ => afterFrac neg (ip : ℚ) cs

/-- Parse a JSON number (strict grammar: no leading zeros, mandatory
digits after `.` and the exponent marker). -/
def parseNumber (cs : List Char) : Option (ℚ × List Char) :=
  let sp : Bool × List Char :=
    match cs with
    | '-' :: t => (true, t)
    | _ => (false, cs)
  match sp.2 with
  | '0' :: t => afterInt sp.1 0 t
  | c :: _ =>
    if c.isDigit then
      let ds := takeDigits sp.2
      afterInt sp.1 (digitsToNat ds.1) ds.2
    else none
  | [] => none

/-- If `pre` is a prefix of `cs`, return the remaining characters. -/
def stripLead : List Char → List Char → Option (List Char)
  | [], rest => some rest
  | _ :: _, [] => none
  | p :: ps, c :: rest => if c = p then stripLead ps rest else none

/-- Parse the members of a JSON object (the input starts at the first
key or after a comma); `pv` parses one value. -/
def parseMembers (pv : List Char → Option (JVal × List Char)) :
    Nat → List Char → Option (JMembers × List Char)
  | 0, _ => none
  | fuel + 1, cs =>
    match cs.dropWhile jsonWs with
    | '"' :: rest =>
      match parseStringBody (rest.length + 1) rest with
      | none => none
      | some (key, rest2) =>
        match rest2.dropWhile jsonWs with
        | ':' :: rest3 =>
          match pv rest3 with
          | none => none
          | some (v, rest4) =>
            match rest4.dropWhile jsonWs with
            | ',' :: rest5 =>
              (parseMembers pv fuel rest5).map
                (fun p => (JMembers.cons (String.mk key) v p.1, p.2))
            | '\x7d' :: rest5 => some (JMembers.cons (String.mk key) v JMembers.nil, rest5)
            | _ => none
        | _ => none
    | _ => none

/-- Parse the items of a JSON array (the input starts at the first item
or after a comma); `pv` parses one value. -/
def parseItems (pv : List Char → Option (JVal × List Char)) :
    Nat → List Char → Option (JList × List Char)
  | 0, _ => none
  | fuel + 1, cs =>
    match pv cs with
    | none => none
    | some (v, rest) =>
      match rest.dropWhile jsonWs with
      | ',' :: rest2 => (parseItems pv fuel rest2).map (fun p => (JList.cons v p.1, p.2))
      | ']' :: rest2 => some (JList.cons v JList.nil, rest2)
      | _ => none

/-- Parse one JSON value, skipping leading whitespace.  The fuel bounds
nesting depth and is always instantiated with the input length plus
one. -/
def parseValue : Nat → List Char → Option (JVal × List Char)
  | 0, _ => none
  | fuel + 1, cs0 =>
    match cs0.dropWhile jsonWs with
    | [] => none
    | c :: rest =>
      if c = '"' then
        (parseStringBody (rest.length + 1) rest).map
          (fun p => (JVal.str (String.mk p.1), p.2))
      else if c = '\x7b' then
        match rest.dropWhile jsonWs with
        | '\x7d' :: rest2 => some (JVal.obj JMembers.nil, rest2)
        | cs2 =>
          (parseMembers (parseValue fuel) (cs2.length + 1) cs2).map
            (fun p => (JVal.obj p.1, p.2))
      else if c = '[' then
        match rest.dropWhile jsonWs with
        | ']' :: rest2 => some (JVal.arr JList.nil, rest2)
        | cs2 =>
          (parseItems (parseValue fuel) (cs2.length + 1) cs2).map
            (fun p => (JVal.arr p.1, p.2))
      else
        match stripLead "true".toList (c :: rest) with
        | some rem => some (JVal.bool true, rem)
        | none =>
        match stripLead "false".toList (c :: rest) with
        | some rem => some (JVal.bool false, rem)
        | none =>
        match stripLead "null".toList (c :: rest) with
        | some rem => some (JVal.null, rem)
        | none =>
        match stripLead "NaN".toList (c :: rest) with
        | some rem => some (JVal.nonfinite "NaN", rem)
        | none =>
        match stripLead "Infinity".toList (c :: rest) with
        | some rem => some (JVal.nonfinite "Infinity", rem)
        | none =>
        match stripLead "-Infinity".toList (c :: rest) with
        | some rem => some (JVal.nonfinite "-Infinity", rem)
        | none => (parseNumber (c :: rest)).map (fun p => (JVal.num p.1, p.2))

/-- Model of Python `json.loads`: parse one value and require only
whitespace to remain. -/
def jsonLoads (cs : List Char) : Option JVal :=
  match parseValue (cs.length + 1) cs with
  | some (v, rest) => if (rest.dropWhile jsonWs).isEmpty then some v else none
  | none => none

deriving instance DecidableEq for Except

/-- Find the first occurrence of `sep` (nonempty) in `s`: returns the
characters before it and the characters after it. -/
def splitFirst (sep : List Char) : List Char → Option (List Char × List Char)
  | [] => none
  | c :: rest =>
    match stripLead sep (c :: rest) with
    | some after => some ([], after)
    | none => (splitFirst sep rest).map (fun p => (c :: p.1, p.2))

/-- Fuel-driven worker for `pySplit`. -/
def pySplitF : Nat → List Char → List Char → List (List Char)
  | 0, _, s => [s]
  | fuel + 1, sep, s =>
    match splitFirst sep s with
    | none => [s]
    | some (before, after) => before :: pySplitF fuel sep after

/-- Model of Python `str.split(sep)` for a nonempty separator:
non-overlapping, leftmost-first. -/
def pySplit (sep s : List Char) : List (List Char) := pySplitF (s.length + 1) sep s

/-- Model of Python's `sep in s` substring test. -/
def containsSub (sep s : List Char) : Bool := (splitFirst sep s).isSome

/-- Model of Python `str.strip()`: drop whitespace from both ends. -/
def pyStrip (s : List Char) : List Char :=
  ((s.dropWhile Char.isWhitespace).reverse.dropWhile Char.isWhitespace).reverse

/-- Model of `content.split(tag)[1].split("```")[0].strip()` from
`GrokClient.parse_json_response`.  The `[1]` list access raises an
`IndexError` when `tag` does not occur; this is the error case. -/
def extractFenced (tag cs : List Char) : Except String (List Char) :=
  match pySplit tag cs with
  | _ :: x :: _ => Except.ok (pyStrip ((pySplit "```".toList x).headD []))
  | _ => Except.error "IndexError"

/-- The fence-stripping prelude of `parse_json_response` (lines 117-120
of grok_client.py): if a ```json fence is present take the text inside
it, else if any ``` fence is present take the text inside that,
otherwise keep the content unchanged. -/
def stripFences (cs : List Char) : Except String (List Char) :=
  if containsSub "```json".toList cs then extractFenced "```json".toList cs
  else if containsSub "```".toList cs then extractFenced "```".toList cs
  else Except.ok cs

/-- Model of `content[content.find("\x7b") : content.rfind("\x7d") + 1]`
guarded by `start >= 0 and end > start`: the substring from the first
opening brace to the last closing brace, when that window is nonempty. -/
def braceSlice (cs : List Char) : Option (List Char) :=
  match cs.findIdx? (· = '\x7b'), (cs.reverse.findIdx? (· = '\x7d')) with
  | some st, some ri =>
    let en := cs.length - 1 - ri
    if st < en + 1 then some ((cs.drop st).take (en + 1 - st)) else none
  | _, _ => none

/-- Model of `GrokClient.parse_json_response` (grok_client.py lines
114-135).  The `Except` layer records the places where the Python code
could raise: only the guarded `[1]` indexing inside `extractFenced`.
`json.loads` failures are caught by the source's `try`/`except`
blocks and therefore never surface as errors here. -/
def parseJsonResponse (content : String) : Except String JVal :=
  match stripFences content.toList with
  | Except.error e => Except.error e
  | Except.ok cs =>
    match jsonLoads cs with
    | some j => Except.ok j
    | none =>
      match braceSlice cs with
      | some seg =>
        match jsonLoads seg with
        | some j => Except.ok j
        | none => Except.ok (JVal.obj (JMembers.cons "raw_response" (JVal.str (String.mk cs)) JMembers.nil))
      | none => Except.ok (JVal.obj (JMembers.cons "raw_response" (JVal.str (String.mk cs)) JMembers.nil))

/-- The text `parse_json_response` operates on after its fence-stripping
prelude: the inside of a fenced block when one is present, the original
text otherwise (the `IndexError` case of `extractFenced` is unreachable
because the split is guarded by the substring test). -/
def strippedOf (content : String) : List Char :=
  match stripFences content.toList with
  | Except.ok s => s
  | Except.error _ => content.toList

/-- Modelled from the spec: the recovery order the specification
describes for oracle output — "parse as-is; strip a fenced code block
if present; extract the substring between the first `\x7b` and the last
`\x7d`; if all fail, wrap the raw text under a known key".  Note that
here the un-stripped original text is parsed first and is what gets
wrapped in the fallback. -/
def specRecoveryChain (content : String) : JVal :=
  let cs := content.toList
  match jsonLoads cs with
  | some j => j
  | none =>
    match stripFences cs with
    | Except.ok stripped =>
      match jsonLoads stripped with
      | some j => j
      | none =>
        match braceSlice cs with
        | some seg =>
          match jsonLoads seg with
          | some j => j
          | none => JVal.obj (JMembers.cons "raw_response" (JVal.str content) JMembers.nil)
        | none => JVal.obj (JMembers.cons "raw_response" (JVal.str content) JMembers.nil)
    | Except.error _ => JVal.obj (JMembers.cons "raw_response" (JVal.str content) JMembers.nil)

/-- The recovery chain the code actually implements, stated in the
amended claim's order: strip a fenced code block first if one is
present, then parse the (possibly stripped) text, then try the
first-brace-to-last-brace substring of the stripped text, and finally
wrap the stripped text under the `raw_response` key. -/
def amendedRecoveryChain (content : String) : JVal :=
  let stripped := strippedOf content
  match jsonLoads stripped with
  | some j => j
  | none =>
    match braceSlice stripped with
    | some seg =>
      match jsonLoads seg with
      | some j => j
      | none => JVal.obj (JMembers.cons "raw_response" (JVal.str (String.mk stripped)) JMembers.nil)
    | none => JVal.obj (JMembers.cons "raw_response" (JVal.str (String.mk stripped)) JMembers.nil)

/-- Worker for `dedupById`: `seen` is the set of ids already emitted
(the Python `seen_ids` set; only membership matters). -/
def dedupAux (seen : List Nat) : List Nat → List Nat
  | [] => []
  | x :: xs => if x ∈ seen then dedupAux seen xs else x :: dedupAux (x :: seen) xs

/-- The id-deduplication loop used by `AgenticResearchAgent.execute`
(agent.py lines 561-566) and by the refine merge (lines 1341-1347):
keep the first occurrence of every id, preserving order.  Documents are
represented by their ids. -/
def dedupById (l : List Nat) : List Nat := dedupAux [] l

/-- Modelled from the spec: "order is first-seen order" — keep each
element's first occurrence, dropping every later duplicate. -/
def firstSeen : List Nat → List Nat
  | [] => []
  | x :: xs => x :: firstSeen (xs.filter (fun y => y ≠ x))
termination_by l => l.length
decreasing_by
  simp only [List.length_cons]
  exact Nat.lt_succ_of_le (List.length_filter_le _ xs)

/-- The merge performed by the refine loop (agent.py lines 1338-1347):
extend the accumulated results with the newly retrieved documents, then
deduplicate by id keeping first occurrences. -/
def mergeResults (s newDocs : List Nat) : List Nat := dedupById (s ++ newDocs)

/-- Python `max(scores) if scores else 1` followed by the
`if max <= 0: max = 1` guard of `hybrid_search`. -/
def maxScore (scores : List ℚ) : ℚ :=
  match scores with
  | [] => 1
  | s :: rest =>
    let m := rest.foldl max s
    if m ≤ 0 then 1 else m

/-- Python dict built by comprehension `\x7bid: score for id, score in l\x7d`:
on duplicate keys the later entry wins, so we look the key up in the
reversed list. -/
def lastLookup (l : List (Nat × ℚ)) (k : Nat) : Option ℚ :=
  (l.reverse.find? (fun p => p.1 = k)).map Prod.snd

/-- The combined score `hybrid_search` assigns to a post id: each raw
score list is scaled by its (positive) maximum and the two are mixed
with weight `alpha`; ids missing from a list score `0` there. -/
def hybridScore (semRes keyRes : List (Nat × ℚ)) (alpha : ℚ) (i : Nat) : ℚ :=
  alpha * ((lastLookup semRes i).getD 0 / maxScore (semRes.map Prod.snd))
    + (1 - alpha) * ((lastLookup keyRes i).getD 0 / maxScore (keyRes.map Prod.snd))

/-- Model of `HybridRetriever.hybrid_search` (retrieval.py lines
158-217) given the outcome of the two sub-searches.  The semantic and
keyword searches are external collaborators (embedding model, corpus),
so their scored result lists are inputs here; the combination,
normalization, ordering and truncation are the code under study.
`data` is the corpus id list used to build `post_dict`.  Python sorts
the key set of the combined-score dict, whose iteration order for ties
is unspecified; we use first-seen order of the two result lists, and
all theorems about the ordering are tie-insensitive. -/
def hybridSearch (data : List Nat) (semRes keyRes : List (Nat × ℚ))
    (topK : Nat) (alpha : ℚ) : List Nat :=
  let score := hybridScore semRes keyRes alpha
  let allIds := dedupById (semRes.map Prod.fst ++ keyRes.map Prod.fst)
  let sortedIds := allIds.insertionSort (fun a b => score b ≤ score a)
  (sortedIds.filter (fun i => data.contains i)).take topK

/-- Modelled from the spec: `min(scores)` with the same empty-list
default shape as `maxScore`, for the min-max normalization the
specification describes. -/
def minScore (scores : List ℚ) : ℚ :=
  match scores with
  | [] => 0
  | s :: rest => rest.foldl min s

/-- Modelled from the spec: "independent min-max normalization of each
score list" — map a raw score `v` to `(v - min) / (max - min)`. -/
def minMaxNorm (scores : List ℚ) (v : ℚ) : ℚ :=
  (v - minScore scores) / (maxScore scores - minScore scores)

/-- Modelled from the spec: the combined score `alpha * s_sem +
(1 - alpha) * s_key` with `s_sem`, `s_key` obtained by min-max
normalizing the two score lists independently. -/
def specHybridScore (semRes keyRes : List (Nat × ℚ)) (alpha : ℚ) (i : Nat) : ℚ :=
  alpha * minMaxNorm (semRes.map Prod.snd) ((lastLookup semRes i).getD 0)
    + (1 - alpha) * minMaxNorm (keyRes.map Prod.snd) ((lastLookup keyRes i).getD 0)

/-- The states of `run_workflow`'s state machine (`WorkflowState` in
agent.py), plus `crashed`, which models an uncaught Python exception
escaping `run_workflow`. -/
inductive WState where
  | plan
  | execute
  | validateResults
  | analyze
  | evaluate
  | refine
  | critique
  | summarize
  | complete
  | crashed
deriving DecidableEq

/-- The outcome of one oracle call after `parse_json_response`:
`fail` is `success=False` from `GrokClient.call`; `notDict` is a
successful call whose parsed JSON is not a dict; `dict` carries the
fields the phase reads, each `Option` because the oracle may omit it. -/
inductive OracleResp (α : Type) where
  | fail
  | notDict
  | dict : α → OracleResp α
deriving DecidableEq

/-- Fields of a parsed validation response read by `validate_results`. -/
structure VFields where
  validationPassed : Option Bool
  relevanceScore : Option ℚ
  recommendations : Option (List String)
  action : Option String
deriving DecidableEq

/-- Fields of a parsed analysis response read by `analyze` and the
orchestrator. -/
structure AFields where
  confidence : Option ℚ
  dataQuality : Option String
deriving DecidableEq

/-- Fields of a parsed strategy-evaluation response read by
`evaluate_for_replan`. -/
structure EFields where
  replanNeeded : Option Bool
deriving DecidableEq

/-- One raw entry of a refinement's `next_steps` before normalization:
either not a dict at all, or a dict with the fields the normalizer
reads (`filters` only matters through its truthiness). -/
inductive RStepRaw where
  | notDict
  | fields : Option String → Option String → Bool → RStepRaw
deriving DecidableEq

/-- Fields of a parsed refinement response read by `refine`. -/
structure RFields where
  refinementNeeded : Option Bool
  reason : Option String
  nextSteps : Option (List RStepRaw)
deriving DecidableEq

/-- Fields of a parsed critique response read by `critique` and the
orchestrator. -/
structure CFields where
  critiquePassed : Option Bool
  hallucinations : Option (List String)
  biases : Option (List String)
  revisedSummary : Option String
deriving DecidableEq

/-- A normalized executable refinement step (`\x7baction: search|filter\x7d`
after the coercion in `refine`). -/
inductive RStep where
  | search : String → RStep
  | filter : RStep
deriving DecidableEq

/-- The analysis record after `analyze`'s normalization: `confidence`
always present (defaulted to 0.5), `data_quality` left as the oracle
supplied it (read later with default "medium"). -/
structure AnalysisR where
  confidence : ℚ
  dataQuality : Option String
deriving DecidableEq

/-- The validation record after `validate_results`' normalization. -/
structure ValidationR where
  passedOpt : Option Bool
  relevance : ℚ
  recommendations : Option (List String)
  action : String
deriving DecidableEq

/-- The refinement record after `refine`'s normalization. -/
structure RefinementR where
  needed : Bool
  reason : String
  nextSteps : List RStep
deriving DecidableEq

/-- The critique record after `critique`'s normalization. -/
structure CritiqueR where
  passed : Bool
  hallucinations : List String
  biases : List String
  revisedSummary : Option String
deriving DecidableEq

/-- One entry of the `ExecutionHistory` (`ContextManager.execution_steps`),
reduced to the step type and token count the claims mention. -/
structure StepRec where
  stype : String
  tokens : Nat
deriving DecidableEq

/-- The environment's answers for one state-machine transition: raw
retrieval output and one oracle response per executor that might run
during the transition, together with the token counts a successful call
reports. -/
structure EnvInput where
  planFail : Bool
  pTokens : Nat
  retrieved : List Nat
  valid : OracleResp VFields
  vTokens : Nat
  anal : OracleResp AFields
  aTokens : Nat
  eval : OracleResp EFields
  eTokens : Nat
  refi : OracleResp RFields
  rTokens : Nat
  crit : OracleResp CFields
  cTokens : Nat
  summFail : Bool
  summText : String
  sTokens : Nat

/-- A default environment record (all oracle calls fail, retrieval
returns nothing). -/
def envDefault : EnvInput :=
  ⟨true, 0, [], OracleResp.fail, 0, OracleResp.fail, 0, OracleResp.fail, 0,
   OracleResp.fail, 0, OracleResp.fail, 0, true, "", 0⟩

/-- The configuration of a run: the loop ceilings (`max_iterations`,
`max_replans` arguments of `run_workflow` and the local
`max_critique_refine_loops`, fixed to 2 in the source), the resolved
fast-mode flag, the two skip-on-high-confidence config flags and
`config.MAX_RETRIEVAL_RESULTS`. -/
structure AgentConfig where
  maxIterations : Nat
  maxReplans : Nat
  maxCritiqueRefineLoops : Nat
  fastMode : Bool
  skipEvaluateHigh : Bool
  skipCritiqueHigh : Bool
  maxRetrievalResults : Nat
deriving DecidableEq

/-- The configuration the deployed code runs with: `MAX_ITERATIONS = 2`,
`max_replans = 2`, `max_critique_refine_loops = 2`,
`MAX_RETRIEVAL_RESULTS = 15`, both skip flags on (server/config.py);
fast mode off so every phase is exercised. -/
def defaultCfg : AgentConfig := ⟨2, 2, 2, false, true, true, 15⟩

/-- The mutable state of one `run_workflow` invocation: the current
machine state, the per-run variables of agent.py lines 1084-1098 and
the execution history. -/
structure RunState where
  phase : WState
  results : List Nat
  analysis : Option AnalysisR
  summary : Option String
  critiqueResult : Option CritiqueR
  iterationCount : Nat
  replanCount : Nat
  critiqueRefineLoopCount : Nat
  prevConfidence : Option ℚ
  confidenceHistory : List ℚ
  pendingRefinement : Option RefinementR
  log : List StepRec
deriving DecidableEq

/-- The state at the top of `run_workflow` after the resets of lines
1084-1098. -/
def initState : RunState :=
  ⟨WState.plan, [], none, none, none, 0, 0, 0, none, [], none, []⟩

/-- Truthiness of an optional Python string: `None` and `""` are falsy. -/
def truthyStr (o : Option String) : Option String :=
  match o with
  | some t => if t = "" then none else some t
  | none => none

/-- Python `x or d` for an optional string field. -/
def pyOr (o : Option String) (d : String) : String :=
  match o with
  | none => d
  | some s => if s = "" then d else s

/-- Whether the stored critique result exists and failed (the guard of
agent.py line 1307). -/
def critFailedB (s : RunState) : Bool :=
  match s.critiqueResult with
  | some c => !c.passed
  | none => false

/-- Number of history entries of a given step type. -/
def countLog (l : List StepRec) (t : String) : Nat :=
  (l.filter (fun r => r.stype = t)).length

/-- Model of `AgenticResearchAgent.execute` (agent.py lines 508-585)
applied to whatever raw document list the retrieval engine produced
across the plan's steps: deduplicate by id keeping first occurrences,
then truncate to `config.MAX_RETRIEVAL_RESULTS`.  The retrieval engine
itself is an external collaborator, so the concatenated raw result list
is an input.  (The tool-calling branch dedups as it goes and applies
the same `[:MAX_RETRIEVAL_RESULTS]` truncation, so it is covered by the
same shape.) -/
def executeModel (maxR : Nat) (raw : List Nat) : List Nat :=
  (dedupById raw).take maxR

/-- Normalization of a parsed validation dict (`validate_results`,
agent.py lines 486-492): a non-dict is replaced by a permissive stub;
a missing `action` defaults from the truthiness of
`validation_passed`, and a missing `relevance_score` defaults to 0.7 or
0.4 on the same test. -/
def normValidation (resp : OracleResp VFields) : ValidationR :=
  match resp with
  | OracleResp.fail => ⟨some true, 3/5, some [], "proceed"⟩
  | OracleResp.notDict => ⟨some true, 3/5, none, "proceed"⟩
  | OracleResp.dict f =>
    let passedTruthy := f.validationPassed = some true
    ⟨f.validationPassed,
     f.relevanceScore.getD (if passedTruthy then 7/10 else 2/5),
     f.recommendations,
     f.action.getD (if passedTruthy then "proceed" else "refine")⟩

/-- Model of `AgenticResearchAgent.validate_results` (agent.py lines
383-506): an empty result set short-circuits to `action="replan"` with
relevance 0 and a zero-token audit record, without consulting the
oracle; an oracle failure yields the permissive default; otherwise the
parsed response is normalized.  Returns the validation together with
the appended `ExecutionStep` record. -/
def validateModel (results : List Nat) (resp : OracleResp VFields)
    (tok : Nat) : ValidationR × StepRec :=
  if results.isEmpty then
    (⟨some false, 0, some ["No results retrieved - need to expand search"], "replan"⟩,
     ⟨"validate", 0⟩)
  else
    match resp with
    | OracleResp.fail => (normValidation OracleResp.fail, ⟨"validate", 0⟩)
    | r => (normValidation r, ⟨"validate", tok⟩)

/-- Model of `AgenticResearchAgent.analyze`'s normalization (agent.py
lines 633-652) for the two cases that return: an oracle failure yields
the fallback analysis (confidence 0.3, data quality "unknown"); a
parsed dict gets `confidence` defaulted to 0.5.  A non-dict response
makes the source crash (`"confidence" not in analysis` /
`analysis["confidence"] = 0.5` raise `TypeError`) and is handled by the
step function, not here. -/
def analyzeModel (resp : OracleResp AFields) (tok : Nat) : AnalysisR × StepRec :=
  match resp with
  | OracleResp.dict f => (⟨f.confidence.getD (1/2), f.dataQuality⟩, ⟨"analyze", tok⟩)
  | _ => (⟨3/10, some "unknown"⟩, ⟨"analyze", 0⟩)

/-- Normalization of the refinement's `next_steps` (agent.py lines
793-804): non-dict entries are dropped; an entry whose lowered action
contains "search" becomes a search step with the stripped description
(or the original query); an entry with action exactly "filter" and
truthy filters becomes a filter step; everything else is dropped. -/
def normRSteps (query : String) (raw : List RStepRaw) : List RStep :=
  raw.filterMap fun s =>
    match s with
    | RStepRaw.notDict => none
    | RStepRaw.fields act desc hasFilters =>
      let a := (pyOr act "search").toLower
      let d := String.mk (pyStrip (pyOr desc "").toList)
      if containsSub "search".toList a.toList then
        some (RStep.search (if d = "" then query else d))
      else if a = "filter" ∧ hasFilters then some RStep.filter
      else none

/-- The oracle-consulting tail of `AgenticResearchAgent.refine`
(agent.py lines 754-821): fallback on oracle failure, normalization of
a successful response, and the force-to-false rule when normalization
leaves no executable step. -/
def refineOracleModel (query : String) (resp : OracleResp RFields)
    (tok : Nat) : RefinementR × StepRec :=
  match resp with
  | OracleResp.fail =>
    (⟨false, "API error - skipping refinement to avoid invalid state", []⟩, ⟨"refine", 0⟩)
  | OracleResp.notDict =>
    (⟨false, "Invalid refinement response", []⟩, ⟨"refine", tok⟩)
  | OracleResp.dict f =>
    let steps0 := f.nextSteps.getD []
    let needed0 := f.refinementNeeded.getD (!steps0.isEmpty)
    let reason0 := f.reason.getD "Refinement check completed"
    let normed := normRSteps query steps0
    if normed.isEmpty ∧ needed0 then
      (⟨false, reason0 ++ " (no executable steps after normalization)", []⟩, ⟨"refine", tok⟩)
    else (⟨needed0, reason0, normed⟩, ⟨"refine", tok⟩)

/-- Model of `AgenticResearchAgent.refine` (agent.py lines 669-821):
first the confidence-stagnation short-circuit (delta below 0.05 after
at least one iteration), then the high-confidence short-circuit
(confidence above 0.85), then the oracle call.  The numeric text
interpolated into the two short-circuit reasons is elided. -/
def refineModel (query : String) (a : AnalysisR) (prevConf : Option ℚ)
    (iterCount : Nat) (resp : OracleResp RFields) (tok : Nat) : RefinementR × StepRec :=
  let conf := a.confidence
  let rest : RefinementR × StepRec :=
    if 17/20 < conf then (⟨false, "High confidence achieved", []⟩, ⟨"refine", 0⟩)
    else refineOracleModel query resp tok
  match prevConf with
  | some p =>
    if conf - p < 1/20 ∧ 0 < iterCount then
      (⟨false, "Confidence not improving - proceeding to avoid loops", []⟩, ⟨"refine", 0⟩)
    else rest
  | none => rest

/-- Model of `AgenticResearchAgent.evaluate_for_replan`'s normalization
(agent.py lines 887-898): oracle failure and non-dict responses both
yield `replan_needed = False`; a dict defaults the missing key to
`False`. -/
def evalModel (resp : OracleResp EFields) (tok : Nat) : Bool × StepRec :=
  match resp with
  | OracleResp.fail => (false, ⟨"evaluate", 0⟩)
  | OracleResp.notDict => (false, ⟨"evaluate", tok⟩)
  | OracleResp.dict f => (f.replanNeeded.getD false, ⟨"evaluate", tok⟩)

/-- Model of `AgenticResearchAgent.critique`'s normalization (agent.py
lines 973-987): oracle failure passes with a bias note; a non-dict
response is replaced by a passing stub; a dict defaults
`critique_passed` to "no hallucinations listed". -/
def critiqueModel (resp : OracleResp CFields) (tok : Nat) : CritiqueR × StepRec :=
  match resp with
  | OracleResp.fail =>
    (⟨true, [], ["Could not complete critique due to API error"], none⟩, ⟨"critique", 0⟩)
  | OracleResp.notDict => (⟨true, [], [], none⟩, ⟨"critique", tok⟩)
  | OracleResp.dict f =>
    (⟨f.critiquePassed.getD (f.hallucinations.getD []).isEmpty,
      f.hallucinations.getD [], f.biases.getD [], f.revisedSummary⟩, ⟨"critique", tok⟩)

/-- Model of `AgenticResearchAgent.summarize` (agent.py lines
1003-1057): the fixed fallback sentence on oracle failure, the oracle
text otherwise. -/
def summarizeModel (failB : Bool) (txt : String) (tok : Nat) : String × StepRec :=
  if failB then
    ("Summary could not be generated due to an API error. Please try again. The analysis and retrieved results are still available.",
     ⟨"summarize", 0⟩)
  else (txt, ⟨"summarize", tok⟩)

/-- Whether a normalized refinement step is a search action (used to
decide whether the retrieval engine is consulted at all during a
refinement round: with no search step, `execute` accumulates nothing). -/
def isSearchStep : RStep → Bool
  | RStep.search _ => true
  | RStep.filter => false

/-- The PLAN branch of `run_workflow` (agent.py lines 1108-1126): the
plan itself only feeds the retrieval engine (an external collaborator),
so the transition records the audit entry and moves to EXECUTE.  A
failed plan oracle is replaced by the fallback plan (lines 104-115),
which also proceeds to EXECUTE. -/
def stepPlan (e : EnvInput) (s : RunState) : RunState :=
  { s with phase := WState.execute,
           log := s.log ++ [⟨"plan", if e.planFail then 0 else e.pTokens⟩] }

/-- The EXECUTE branch (agent.py lines 1128-1141): run `execute` on the
plan, store its deduplicated, truncated output as the result set. -/
def stepExecute (cfg : AgentConfig) (e : EnvInput) (s : RunState) : RunState :=
  { s with phase := WState.validateResults,
           results := executeModel cfg.maxRetrievalResults e.retrieved,
           log := s.log ++ [⟨"execute", 0⟩] }

/-- The VALIDATE_RESULTS branch (agent.py lines 1143-1193): run
`validate_results`, then branch on the normalized action and relevance:
replan (guarded by the replan ceiling and relevance below 0.3, clearing
results, analysis and the confidence tracking), stage a synthetic
refinement (action "refine" and relevance below 0.4), or proceed to
ANALYZE. -/
def stepValidate (cfg : AgentConfig) (e : EnvInput) (s : RunState) : RunState :=
  let vr := validateModel s.results e.valid e.vTokens
  let s1 := { s with log := s.log ++ [vr.2] }
  let v := vr.1
  if v.action = "replan" ∧ s1.replanCount < cfg.maxReplans then
    if v.relevance < 3/10 then
      { s1 with replanCount := s1.replanCount + 1, results := [], analysis := none,
                prevConfidence := none, confidenceHistory := [], phase := WState.plan }
    else { s1 with phase := WState.analyze }
  else if v.action = "refine" ∧ v.relevance < 2/5 then
    let recs := (v.recommendations.getD ["Expand search"]).take 2
    { s1 with
      pendingRefinement := some ⟨true, "Low result relevance", recs.map RStep.search⟩,
      phase := WState.refine }
  else { s1 with phase := WState.analyze }

/-- The ANALYZE branch (agent.py lines 1195-1218): run `analyze`,
append the confidence to the history, set `previous_confidence` to the
second-to-last history entry, move to EVALUATE.  A successful oracle
call whose JSON is not a dict crashes `analyze` (TypeError while
normalizing), modelled by the `crashed` state. -/
def stepAnalyze (e : EnvInput) (s : RunState) : RunState :=
  match e.anal with
  | OracleResp.notDict => { s with phase := WState.crashed }
  | resp =>
    let ar := analyzeModel resp e.aTokens
    { s with analysis := some ar.1,
             confidenceHistory := s.confidenceHistory ++ [ar.1.confidence],
             prevConfidence := s.confidenceHistory.getLast?,
             log := s.log ++ [ar.2],
             phase := WState.evaluate }

/-- The EVALUATE branch (agent.py lines 1220-1280): skipped entirely in
fast mode or on high confidence with high data quality; otherwise
`evaluate_for_replan` runs.  A replan (guarded by the ceiling) clears
results and analysis — but, unlike the validation replan, leaves the
confidence history and `previous_confidence` in place. -/
def stepEvaluate (cfg : AgentConfig) (e : EnvInput) (s : RunState) : RunState :=
  let conf := match s.analysis with | some a => a.confidence | none => 1/2
  let dq := (s.analysis.bind AnalysisR.dataQuality).getD "medium"
  let skipE := cfg.fastMode || (cfg.skipEvaluateHigh && (decide (17/20 < conf) && decide (dq = "high")))
  let pr : Bool × RunState :=
    if skipE then (false, s)
    else
      let er := evalModel e.eval e.eTokens
      (er.1, { s with log := s.log ++ [er.2] })
  if pr.1 ∧ pr.2.replanCount < cfg.maxReplans then
    { pr.2 with replanCount := pr.2.replanCount + 1, results := [], analysis := none,
                phase := WState.plan }
  else { pr.2 with phase := WState.refine }

/-- The body of a refinement round (agent.py lines 1321-1373): bump the
iteration counter, run `execute` over the refinement steps (no search
step means the retrieval engine is never consulted and nothing is
accumulated), merge and deduplicate, re-analyze, then either stop on
confidence stagnation (straight to CRITIQUE, without clearing the
stored critique) or clear the critique bookkeeping and loop back to
VALIDATE_RESULTS. -/
def refinementRound (cfg : AgentConfig) (e : EnvInput) (refn : RefinementR)
    (iteration : Nat) (s : RunState) : RunState :=
  let s1 := { s with iterationCount := iteration }
  let raw := if refn.nextSteps.any isSearchStep then e.retrieved else []
  let additional := executeModel cfg.maxRetrievalResults raw
  let s2 := { s1 with log := s1.log ++ [(⟨"execute", 0⟩ : StepRec)] }
  let merged := mergeResults s2.results additional
  match e.anal with
  | OracleResp.notDict => { s2 with results := merged, phase := WState.crashed }
  | resp =>
    let ar := analyzeModel resp e.aTokens
    let s3 := { s2 with results := merged, analysis := some ar.1,
                        confidenceHistory := s2.confidenceHistory ++ [ar.1.confidence],
                        log := s2.log ++ [ar.2] }
    match s3.prevConfidence with
    | some p =>
      if ar.1.confidence - p < 1/20 ∧ 1 < s3.confidenceHistory.length then
        { s3 with phase := WState.critique, prevConfidence := some ar.1.confidence }
      else
        { s3 with prevConfidence := some ar.1.confidence, critiqueResult := none,
                  critiqueRefineLoopCount := 0, phase := WState.validateResults }
    | none =>
      { s3 with prevConfidence := some ar.1.confidence, critiqueResult := none,
                critiqueRefineLoopCount := 0, phase := WState.validateResults }

/-- The REFINE branch (agent.py lines 1282-1378).  The iteration
ceiling is checked first.  A refinement staged by VALIDATE_RESULTS is
then picked up — and the source immediately calls
`self.context.clear_intermediate_result`, a method `ContextManager`
does not define, so this path raises `AttributeError`: the `crashed`
state.  Otherwise `refine` is consulted; a stored failed critique
forces the refinement (or, past the critique-refine-loop ceiling, jumps
to SUMMARIZE adopting a truthy revised summary). -/
def stepRefine (cfg : AgentConfig) (e : EnvInput) (s : RunState) : RunState :=
  let iteration := s.iterationCount + 1
  if cfg.maxIterations < iteration then { s with phase := WState.critique }
  else
    match s.pendingRefinement with
    | some _ => { s with phase := WState.crashed }
    | none =>
      match s.analysis with
      | none => { s with phase := WState.crashed }
      | some a =>
        let rr := refineModel "query" a s.prevConfidence s.iterationCount e.refi e.rTokens
        let s1 := { s with log := s.log ++ [rr.2] }
        if critFailedB s1 then
          if cfg.maxCritiqueRefineLoops ≤ s1.critiqueRefineLoopCount then
            let revised := s1.critiqueResult.bind (fun c => truthyStr c.revisedSummary)
            { s1 with summary := match revised with | some t => some t | none => s1.summary,
                      phase := WState.summarize }
          else
            refinementRound cfg e
              { rr.1 with needed := true, reason := "Critique found issues" } iteration s1
        else if rr.1.needed then refinementRound cfg e rr.1 iteration s1
        else { s1 with phase := WState.critique }

/-- The CRITIQUE branch (agent.py lines 1380-1462): skipped (auto-pass)
in fast mode or on high confidence and quality; otherwise the summary
is generated first if absent and `critique` runs.  A failed critique
with hallucinations loops back to REFINE when both the iteration and
critique-refine-loop ceilings allow, incrementing the loop counter;
otherwise a truthy revised summary is adopted and the run proceeds to
SUMMARIZE.  A passed critique resets the loop counter. -/
def stepCritique (cfg : AgentConfig) (e : EnvInput) (s : RunState) : RunState :=
  let conf := match s.analysis with | some a => a.confidence | none => 1/2
  let dq := (s.analysis.bind AnalysisR.dataQuality).getD "medium"
  let skipC := cfg.fastMode || (cfg.skipCritiqueHigh && (decide (17/20 < conf) && decide (dq = "high")))
  let cs : CritiqueR × RunState :=
    if skipC then
      let s1 :=
        if s.summary = none then
          let sm := summarizeModel e.summFail e.summText e.sTokens
          { s with summary := some sm.1, log := s.log ++ [sm.2] }
        else s
      (⟨true, [], [], none⟩, { s1 with critiqueResult := some ⟨true, [], [], none⟩ })
    else
      let s1 :=
        if s.summary = none then
          let sm := summarizeModel e.summFail e.summText e.sTokens
          { s with summary := some sm.1, log := s.log ++ [sm.2] }
        else s
      let cr := critiqueModel e.crit e.cTokens
      (cr.1, { s1 with critiqueResult := some cr.1, log := s1.log ++ [cr.2] })
  let c := cs.1
  let s2 := cs.2
  if !c.passed then
    if ¬c.hallucinations.isEmpty ∧ s2.iterationCount < cfg.maxIterations ∧
        s2.critiqueRefineLoopCount < cfg.maxCritiqueRefineLoops then
      { s2 with critiqueRefineLoopCount := s2.critiqueRefineLoopCount + 1,
                phase := WState.refine }
    else
      { s2 with summary := match truthyStr c.revisedSummary with
                           | some t => some t
                           | none => s2.summary,
                phase := WState.summarize }
  else { s2 with critiqueRefineLoopCount := 0, phase := WState.summarize }

/-- The SUMMARIZE branch (agent.py lines 1464-1471): generate the
summary if no earlier phase already did, then complete. -/
def stepSummarize (e : EnvInput) (s : RunState) : RunState :=
  if s.summary = none then
    let sm := summarizeModel e.summFail e.summText e.sTokens
    { s with summary := some sm.1, log := s.log ++ [sm.2], phase := WState.complete }
  else { s with phase := WState.complete }

/-- One transition of the `run_workflow` state machine.  `complete` is
terminal; `crashed` (an uncaught exception) is absorbing. -/
def workflowStep (cfg : AgentConfig) (e : EnvInput) (s : RunState) : RunState :=
  match s.phase with
  | WState.plan => stepPlan e s
  | WState.execute => stepExecute cfg e s
  | WState.validateResults => stepValidate cfg e s
  | WState.analyze => stepAnalyze e s
  | WState.evaluate => stepEvaluate cfg e s
  | WState.refine => stepRefine cfg e s
  | WState.critique => stepCritique cfg e s
  | WState.summarize => stepSummarize e s
  | WState.complete => s
  | WState.crashed => s

/-- Run the state machine for `n` transitions from `initState`; the
environment supplies the oracle and retrieval answers of transition
`k` at index `k`. -/
def runWorkflow (cfg : AgentConfig) (env : Nat → EnvInput) : Nat → RunState
  | 0 => initState
  | n + 1 => workflowStep cfg (env n) (runWorkflow cfg env n)

/-- An environment record whose validation oracle answers "proceed"
with relevance 0.9. -/
def envProceed : EnvInput :=
  { envDefault with valid := OracleResp.dict ⟨some true, some (9/10), none, some "proceed"⟩ }

/-- An environment record whose analysis oracle reports the given
confidence with medium data quality. -/
def envAnal (q : ℚ) : EnvInput :=
  { envDefault with anal := OracleResp.dict ⟨some q, some "medium"⟩ }

/-- An environment record whose strategy-evaluation oracle answers
"no replan". -/
def envEvalNo : EnvInput :=
  { envDefault with eval := OracleResp.dict ⟨some false⟩ }

/-- Oracle script driving `run_workflow` into the missing-method crash:
one document is retrieved, then the validation oracle answers
`action="refine"` with relevance 0.35, which stages a pending
refinement (agent.py lines 1176-1189); the next REFINE transition calls
`self.context.clear_intermediate_result` (line 1300), which
`ContextManager` does not define. -/
def envCrashScript : Nat → EnvInput := fun n =>
  ([envDefault,
    { envDefault with retrieved := [0] },
    { envDefault with valid := (OracleResp.dict
        ⟨some false, some (7/20), some ["broaden the search"], some "refine"⟩) }] :
    List EnvInput).getD n envDefault

/-- The run driven by `envCrashScript` under the deployed
configuration. -/
def crashRun (n : Nat) : RunState := runWorkflow defaultCfg envCrashScript n

/-- Configuration with a roomier iteration ceiling (`max_iterations=5`)
used by the critique-refine-loop scripts; the other ceilings are the
deployed defaults. -/
def cfgLoop : AgentConfig := ⟨5, 2, 2, false, true, true, 15⟩

/-- Oracle script exercising the critique-refine loop: one refinement
round raises confidence 0.4 to 0.5, a second refinement check stagnates
(0.5 to 0.5), the critique then fails with a hallucination, forcing a
third refinement whose re-analysis jumps to 0.9 — at which point the
source resets `critique_refine_loop_count` from 1 back to 0 (agent.py
line 1371). -/
def envLoopScript : Nat → EnvInput := fun n =>
  ([envDefault,
    { envDefault with retrieved := [0] },
    envProceed,
    envAnal (2/5),
    envEvalNo,
    { envDefault with
        refi := (OracleResp.dict ⟨some true, some "need more",
          some [RStepRaw.fields (some "search") (some "more data") false]⟩),
        retrieved := [1],
        anal := OracleResp.dict ⟨some (1/2), some "medium"⟩ },
    envProceed,
    envAnal (1/2),
    envEvalNo,
    envDefault,
    { envDefault with
        summFail := false
        summText := "S"
        crit := (OracleResp.dict ⟨some false, some ["unsupported claim"], some [], none⟩) },
    envAnal (9/10)] : List EnvInput).getD n envDefault

/-- The run driven by `envLoopScript`. -/
def loopRun (n : Nat) : RunState := runWorkflow cfgLoop envLoopScript n

/-- Oracle script overflowing the result cap: the initial execution
retrieves 15 documents (the configured maximum), then one refinement
round retrieves 15 further fresh documents, which the refine merge
(agent.py lines 1338-1347) adds without re-truncating. -/
def envOverflowScript : Nat → EnvInput := fun n =>
  ([envDefault,
    { envDefault with retrieved := List.range 15 },
    envProceed,
    envAnal (2/5),
    envEvalNo,
    { envDefault with
        refi := (OracleResp.dict ⟨some true, some "need more",
          some [RStepRaw.fields (some "search") (some "more data") false]⟩),
        retrieved := (List.range 15).map (fun i => i + 15),
        anal := OracleResp.dict ⟨some (1/2), some "medium"⟩ }] : List EnvInput).getD n envDefault

/-- The run driven by `envOverflowScript` under the deployed
configuration. -/
def overflowRun (n : Nat) : RunState := runWorkflow defaultCfg envOverflowScript n

/-- A concrete Refine-phase state with stagnating confidence (last two
analyses both 0.5 after one refinement iteration), used to witness the
stagnation guard. -/
def stagState : RunState :=
  { initState with
      phase := WState.refine
      analysis := some ⟨1/2, some "medium"⟩
      prevConfidence := some (1/2)
      iterationCount := 1
      confidenceHistory := [2/5, 1/2, 1/2] }

theorem dedupAux_seen_congr (l : List Nat) : ∀ s₁ s₂ : List Nat,
    (∀ x, x ∈ s₁ ↔ x ∈ s₂) → dedupAux s₁ l = dedupAux s₂ l := by
  induction l with
  | nil => intro s₁ s₂ _; rfl
  | cons x xs ih =>
    intro s₁ s₂ h
    simp only [dedupAux]
    by_cases hx : x ∈ s₁
    · rw [if_pos hx, if_pos ((h x).mp hx), ih _ _ h]
    · rw [if_neg hx, if_neg (fun hx2 => hx ((h x).mpr hx2))]
      rw [ih (x :: s₁) (x :: s₂) (fun y => by simp [h y])]

theorem mem_dedupAux (l : List Nat) : ∀ seen x,
    x ∈ dedupAux seen l ↔ x ∈ l ∧ x ∉ seen := by
  induction l with
  | nil => intro seen x; simp [dedupAux]
  | cons a xs ih =>
    intro seen x
    simp only [dedupAux]
    by_cases ha : a ∈ seen
    · rw [if_pos ha, ih]
      constructor
      · rintro ⟨h1, h2⟩; exact ⟨List.mem_cons_of_mem _ h1, h2⟩
      · rintro ⟨h1, h2⟩
        rcases List.mem_cons.mp h1 with rfl | h1
        · exact absurd ha h2
        · exact ⟨h1, h2⟩
    · rw [if_neg ha]
      constructor
      · intro h
        rcases List.mem_cons.mp h with rfl | h2
        · exact ⟨List.mem_cons_self _ _, ha⟩
        · obtain ⟨h3, h4⟩ := (ih (a :: seen) x).mp h2
          exact ⟨List.mem_cons_of_mem _ h3, fun hseen => h4 (List.mem_cons_of_mem _ hseen)⟩
      · rintro ⟨h1, h2⟩
        rcases List.mem_cons.mp h1 with rfl | h3
        · exact List.mem_cons_self _ _
        · by_cases hxa : x = a
          · subst hxa; exact List.mem_cons_self _ _
          · refine List.mem_cons_of_mem _ ((ih (a :: seen) x).mpr ⟨h3, ?_⟩)
            intro hmem
            rcases List.mem_cons.mp hmem with h | h
            · exact hxa h
            · exact h2 h

theorem nodup_dedupAux (l : List Nat) : ∀ seen, (dedupAux seen l).Nodup := by
  induction l with
  | nil => intro seen; simp [dedupAux]
  | cons a xs ih =>
    intro seen
    simp only [dedupAux]
    by_cases ha : a ∈ seen
    · rw [if_pos ha]; exact ih seen
    · rw [if_neg ha]
      refine List.Nodup.cons ?_ (ih (a :: seen))
      intro hmem
      exact ((mem_dedupAux xs (a :: seen) a).mp hmem).2 (List.mem_cons_self a seen)

theorem dedupAux_append (l ys : List Nat) : ∀ seen,
    dedupAux seen (l ++ ys) = dedupAux seen l ++ dedupAux (l ++ seen) ys := by
  induction l with
  | nil => intro seen; rfl
  | cons x xs ih =>
    intro seen
    simp only [List.cons_append, dedupAux, List.append_eq]
    by_cases hx : x ∈ seen
    · rw [if_pos hx, if_pos hx]
      have hxy := ih seen
      simp only [List.append_eq] at hxy
      rw [hxy]
      congr 1
      refine dedupAux_seen_congr ys _ _ (fun y => ?_)
      simp only [List.mem_append, List.mem_cons]
      constructor
      · intro h; exact Or.inr h
      · rintro (rfl | h)
        · exact Or.inr hx
        · exact h
    · rw [if_neg hx, if_neg hx]
      have hxy := ih (x :: seen)
      simp only [List.append_eq] at hxy
      rw [hxy]
      simp only [List.cons_append]
      congr 2
      refine dedupAux_seen_congr ys _ _ (fun y => ?_)
      simp only [List.mem_append, List.mem_cons]
      tauto

theorem dedupAux_nil_of_sub (ys : List Nat) : ∀ seen,
    (∀ y ∈ ys, y ∈ seen) → dedupAux seen ys = [] := by
  induction ys with
  | nil => intro seen _; rfl
  | cons y ys ih =>
    intro seen h
    simp only [dedupAux, if_pos (h y (List.mem_cons_self y ys))]
    exact ih seen (fun z hz => h z (List.mem_cons_of_mem _ hz))

theorem dedupAux_eq_self (l : List Nat) : ∀ seen, l.Nodup →
    (∀ x ∈ l, x ∉ seen) → dedupAux seen l = l := by
  induction l with
  | nil => intro seen _ _; rfl
  | cons x xs ih =>
    intro seen hnd hdisj
    simp only [dedupAux, if_neg (hdisj x (List.mem_cons_self x xs))]
    congr 1
    refine ih (x :: seen) (List.Nodup.of_cons hnd) ?_
    intro y hy hmem
    rcases List.mem_cons.mp hmem with rfl | h
    · exact (List.nodup_cons.mp hnd).1 hy
    · exact hdisj y (List.mem_cons_of_mem _ hy) h

theorem dedupAux_length_le (l : List Nat) : ∀ seen,
    (dedupAux seen l).length ≤ l.length := by
  induction l with
  | nil => intro seen; simp [dedupAux]
  | cons x xs ih =>
    intro seen
    simp only [dedupAux, List.length_cons]
    by_cases hx : x ∈ seen
    · rw [if_pos hx]; exact Nat.le_succ_of_le (ih seen)
    · rw [if_neg hx]; simpa using Nat.succ_le_succ (ih (x :: seen))

theorem dedupAux_eq_firstSeen (l : List Nat) : ∀ seen,
    dedupAux seen l = firstSeen (l.filter (fun y => decide (y ∉ seen))) := by
  induction l with
  | nil => intro seen; simp [dedupAux, firstSeen]
  | cons x xs ih =>
    intro seen
    simp only [dedupAux, List.filter_cons]
    by_cases hx : x ∈ seen
    · rw [if_pos hx]
      simp only [hx]
      simp only [not_true_eq_false, decide_False, Bool.false_eq_true, if_false]
      exact ih seen
    · rw [if_neg hx]
      simp only [hx]
      simp only [not_false_eq_true, decide_True, if_true, firstSeen]
      have hfc : (List.filter (fun y => decide (y ∉ seen)) xs).filter (fun y => decide (y ≠ x)) =
          List.filter (fun y => decide (y ∉ x :: seen)) xs := by
        rw [List.filter_filter]
        refine List.filter_congr (fun y _ => ?_)
        by_cases h1 : y = x <;> by_cases h2 : y ∈ seen <;> simp [h1, h2]
      rw [ih (x :: seen), ← hfc]

theorem nodup_dedupById (l : List Nat) : (dedupById l).Nodup :=
  nodup_dedupAux l []

theorem mem_dedupById (l : List Nat) (x : Nat) : x ∈ dedupById l ↔ x ∈ l := by
  rw [dedupById, mem_dedupAux]
  simp

theorem dedupById_eq_firstSeen (l : List Nat) : dedupById l = firstSeen l := by
  rw [dedupById, dedupAux_eq_firstSeen]
  congr 1
  refine (List.filter_eq_self.mpr ?_)
  intro y _
  simp

theorem dedupById_length_le (l : List Nat) : (dedupById l).length ≤ l.length :=
  dedupAux_length_le l []

theorem mergeResults_idem (s ys : List Nat) :
    mergeResults (mergeResults s ys) ys = mergeResults s ys := by
  unfold mergeResults dedupById
  rw [dedupAux_append]
  have h1 : dedupAux ([] : List Nat) (dedupAux [] (s ++ ys)) = dedupAux [] (s ++ ys) :=
    dedupAux_eq_self _ [] (nodup_dedupAux _ _) (by simp)
  have h2 : dedupAux (dedupAux [] (s ++ ys) ++ []) ys = [] := by
    refine dedupAux_nil_of_sub ys _ (fun y hy => ?_)
    simp only [List.append_nil]
    exact (mem_dedupAux (s ++ ys) [] y).mpr ⟨List.mem_append_right s hy, by simp⟩
  rw [h1, h2, List.append_nil]

theorem workflowStep_results_cases (cfg : AgentConfig) (e : EnvInput) (s : RunState) :
    (workflowStep cfg e s).results = s.results ∨
    (workflowStep cfg e s).results = [] ∨
    (∃ raw, (workflowStep cfg e s).results = executeModel cfg.maxRetrievalResults raw) ∨
    (∃ raw, (workflowStep cfg e s).results =
      mergeResults s.results (executeModel cfg.maxRetrievalResults raw)) := by
  cases hph : s.phase <;>
    simp only [workflowStep, hph, stepPlan, stepExecute, stepValidate, stepAnalyze,
      stepEvaluate, stepRefine, stepCritique, stepSummarize, refinementRound]
  all_goals repeat' split
  all_goals
    first
    | (left; rfl)
    | (left; trivial)
    | (right; left; rfl)
    | (right; left; trivial)
    | (right; right; left; exact ⟨_, rfl⟩)
    | (right; right; right; exact ⟨_, rfl⟩)

theorem executeModel_nodup (maxR : Nat) (raw : List Nat) :
    (executeModel maxR raw).Nodup :=
  (nodup_dedupById raw).sublist (List.take_sublist _ _)

theorem executeModel_length_le (maxR : Nat) (raw : List Nat) :
    (executeModel maxR raw).length ≤ maxR := by
  simp only [executeModel, List.length_take]
  exact Nat.min_le_left _ _

/-- C3: the accumulated result set never contains two documents with
the same id — every step of the workflow keeps the result list free of
duplicate ids — and the merge used by Execute and by the Refine loop is
idempotent: merging the same document list a second time leaves the set
unchanged, and the deduplication keeps documents in first-seen order. -/
theorem c3_dedup_unique_idempotent_firstSeen (cfg : AgentConfig) (e : EnvInput)
    (s : RunState) (l acc ys : List Nat) (h : s.results.Nodup) :
    (dedupById l).Nodup ∧
    (workflowStep cfg e s).results.Nodup ∧
    mergeResults (mergeResults acc ys) ys = mergeResults acc ys ∧
    dedupById l = firstSeen l := by
  refine ⟨nodup_dedupById l, ?_, mergeResults_idem acc ys, dedupById_eq_firstSeen l⟩
  rcases workflowStep_results_cases cfg e s with hc | hc | ⟨raw, hc⟩ | ⟨raw, hc⟩ <;> rw [hc]
  · exact h
  · exact List.nodup_nil
  · exact executeModel_nodup _ _
  · exact nodup_dedupById _

/-- Witness for C3 at a concrete state and inputs. -/
theorem c3_dedup_unique_idempotent_firstSeen_witness :
    initState.results.Nodup ∧
    ((dedupById [1, 2, 1, 3]).Nodup ∧
     (workflowStep defaultCfg envDefault initState).results.Nodup ∧
     mergeResults (mergeResults [0, 1] [1, 2]) [1, 2] = mergeResults [0, 1] [1, 2] ∧
     dedupById [1, 2, 1, 3] = firstSeen [1, 2, 1, 3]) :=
  ⟨by decide,
   c3_dedup_unique_idempotent_firstSeen defaultCfg envDefault initState
     [1, 2, 1, 3] [0, 1] [1, 2] (by decide)⟩

/-- C4 counterexample: with the deployed cap of 15, the initial
execution fills the result set to 15 documents and one refinement round
merges in 15 fresh ones; after the merge (transition 6 of
`envOverflowScript`) the accumulated set holds 30 documents, exceeding
the configured maximum — so the cap does not hold at every point of a
run. -/
theorem c4_cap_exceeded_counterexample :
    defaultCfg.maxRetrievalResults = 15 ∧
    (overflowRun 6).results.length = 30 ∧
    defaultCfg.maxRetrievalResults < (overflowRun 6).results.length := by
  refine ⟨rfl, ?_, ?_⟩ <;> with_unfolding_all decide

/-- C4 amended: Execute does truncate its deduplicated output to the
configured maximum, and every transition grows the accumulated result
set by at most that maximum (the refine merge adds one truncated
execution's worth of documents without re-truncating the union), but
the set itself is not capped at the maximum after a refine merge. -/
theorem c4_execute_truncates_step_growth_bounded (cfg : AgentConfig) (e : EnvInput)
    (s : RunState) (raw : List Nat) :
    (executeModel cfg.maxRetrievalResults raw).length ≤ cfg.maxRetrievalResults ∧
    (workflowStep cfg e s).results.length ≤ s.results.length + cfg.maxRetrievalResults := by
  refine ⟨executeModel_length_le _ _, ?_⟩
  rcases workflowStep_results_cases cfg e s with hc | hc | ⟨r2, hc⟩ | ⟨r2, hc⟩ <;> rw [hc]
  · exact Nat.le_add_right _ _
  · simp
  · exact le_trans (executeModel_length_le _ _) (Nat.le_add_left _ _)
  · calc (mergeResults s.results (executeModel cfg.maxRetrievalResults r2)).length
        ≤ (s.results ++ executeModel cfg.maxRetrievalResults r2).length :=
          dedupById_length_le _
      _ = s.results.length + (executeModel cfg.maxRetrievalResults r2).length := by
          simp
      _ ≤ s.results.length + cfg.maxRetrievalResults :=
          Nat.add_le_add_left (executeModel_length_le _ _) _

theorem workflowStep_crashed (cfg : AgentConfig) (e : EnvInput) (s : RunState)
    (h : s.phase = WState.crashed) : workflowStep cfg e s = s := by
  simp only [workflowStep, h]

theorem crashRun_absorb (k : Nat) : crashRun (4 + k) = crashRun 4 := by
  induction k with
  | zero => rfl
  | succ k ih =>
    show workflowStep defaultCfg (envCrashScript (4 + k)) (crashRun (4 + k)) = crashRun 4
    rw [ih]
    exact workflowStep_crashed _ _ _ (by with_unfolding_all decide)

/-- C1 (refuted by a code bug): there is an oracle-response sequence —
a validation answer `action="refine"` with relevance 0.35 after a
non-empty retrieval — on which `run_workflow` never reaches the
`Complete` state: the staged pending refinement makes the REFINE branch
call `self.context.clear_intermediate_result` (agent.py line 1300), a
method `ContextManager` does not define, so the run dies with an
`AttributeError` after four transitions instead of terminating. -/
theorem c1_run_workflow_crash_never_complete :
    (crashRun 3).phase = WState.refine ∧
    (crashRun 3).pendingRefinement.isSome = true ∧
    (crashRun 4).phase = WState.crashed ∧
    ∀ n, (crashRun n).phase ≠ WState.complete := by
  refine ⟨by with_unfolding_all decide, by with_unfolding_all decide,
    by with_unfolding_all decide, ?_⟩
  intro n
  rcases n with _ | _ | _ | _ | k
  · with_unfolding_all decide
  · with_unfolding_all decide
  · with_unfolding_all decide
  · with_unfolding_all decide
  · rw [show k + 1 + 1 + 1 + 1 = 4 + k by omega, crashRun_absorb]
    with_unfolding_all decide

/-- C2 counterexample: `critique_refine_loop_count` is not monotone
within a run.  In the `envLoopScript` run a failed critique raises it
to 1 (transition 11), and the forced refinement round that follows
resets it to 0 (agent.py line 1371) in the very next transition. -/
theorem c2_loop_counter_decreases_counterexample :
    (loopRun 11).critiqueRefineLoopCount = 1 ∧
    (loopRun 12).critiqueRefineLoopCount = 0 ∧
    loopRun 12 = workflowStep cfgLoop (envLoopScript 11) (loopRun 11) := by
  refine ⟨?_, ?_, rfl⟩ <;> with_unfolding_all decide

/-- C2 amended: `replan_count` and `iteration_count` are monotonically
non-decreasing across a run and every increment of any of the three
counters is guarded by a strict comparison against its ceiling, so no
counter is ever incremented past its ceiling; but
`critique_refine_loop_count` is additionally reset to 0 after a
successful refinement or a passed critique, so it is guarded and
bounded without being monotone. -/
theorem c2_counters_guarded (cfg : AgentConfig) (e : EnvInput) (s : RunState)
    (hr : s.replanCount ≤ cfg.maxReplans)
    (hi : s.iterationCount ≤ cfg.maxIterations)
    (hc : s.critiqueRefineLoopCount ≤ cfg.maxCritiqueRefineLoops) :
    s.replanCount ≤ (workflowStep cfg e s).replanCount ∧
    s.iterationCount ≤ (workflowStep cfg e s).iterationCount ∧
    (workflowStep cfg e s).replanCount ≤ cfg.maxReplans ∧
    (workflowStep cfg e s).iterationCount ≤ cfg.maxIterations ∧
    (workflowStep cfg e s).critiqueRefineLoopCount ≤ cfg.maxCritiqueRefineLoops ∧
    ((workflowStep cfg e s).replanCount = s.replanCount ∨
      (s.replanCount < cfg.maxReplans ∧
        (workflowStep cfg e s).replanCount = s.replanCount + 1)) ∧
    ((workflowStep cfg e s).iterationCount = s.iterationCount ∨
      (s.iterationCount < cfg.maxIterations ∧
        (workflowStep cfg e s).iterationCount = s.iterationCount + 1)) ∧
    ((workflowStep cfg e s).critiqueRefineLoopCount = 0 ∨
      (workflowStep cfg e s).critiqueRefineLoopCount = s.critiqueRefineLoopCount ∨
      (s.critiqueRefineLoopCount < cfg.maxCritiqueRefineLoops ∧
        (workflowStep cfg e s).critiqueRefineLoopCount = s.critiqueRefineLoopCount + 1)) := by
  cases hph : s.phase <;>
    simp only [workflowStep, hph, stepPlan, stepExecute, stepValidate, stepAnalyze,
      stepEvaluate, stepRefine, stepCritique, stepSummarize, refinementRound]
  all_goals repeat' split
  all_goals simp_all
  all_goals omega

/-- Witness for C2 at a concrete configuration, environment and state. -/
theorem c2_counters_guarded_witness :
    (initState.replanCount ≤ defaultCfg.maxReplans ∧
     initState.iterationCount ≤ defaultCfg.maxIterations ∧
     initState.critiqueRefineLoopCount ≤ defaultCfg.maxCritiqueRefineLoops) ∧
    (initState.replanCount ≤ (workflowStep defaultCfg envDefault initState).replanCount ∧
     initState.iterationCount ≤ (workflowStep defaultCfg envDefault initState).iterationCount ∧
     (workflowStep defaultCfg envDefault initState).replanCount ≤ defaultCfg.maxReplans ∧
     (workflowStep defaultCfg envDefault initState).iterationCount ≤ defaultCfg.maxIterations ∧
     (workflowStep defaultCfg envDefault initState).critiqueRefineLoopCount ≤
       defaultCfg.maxCritiqueRefineLoops ∧
     ((workflowStep defaultCfg envDefault initState).replanCount = initState.replanCount ∨
       (initState.replanCount < defaultCfg.maxReplans ∧
         (workflowStep defaultCfg envDefault initState).replanCount =
           initState.replanCount + 1)) ∧
     ((workflowStep defaultCfg envDefault initState).iterationCount = initState.iterationCount ∨
       (initState.iterationCount < defaultCfg.maxIterations ∧
         (workflowStep defaultCfg envDefault initState).iterationCount =
           initState.iterationCount + 1)) ∧
     ((workflowStep defaultCfg envDefault initState).critiqueRefineLoopCount = 0 ∨
       (workflowStep defaultCfg envDefault initState).critiqueRefineLoopCount =
         initState.critiqueRefineLoopCount ∨
       (initState.critiqueRefineLoopCount < defaultCfg.maxCritiqueRefineLoops ∧
         (workflowStep defaultCfg envDefault initState).critiqueRefineLoopCount =
           initState.critiqueRefineLoopCount + 1))) :=
  ⟨⟨by decide, by decide, by decide⟩,
   c2_counters_guarded defaultCfg envDefault initState (by decide) (by decide) (by decide)⟩

/-- C5: entering ValidateResults with an empty result set
deterministically yields `action="replan"` with relevance 0 without
consulting the oracle — the returned validation and its zero-token
audit record are independent of the oracle response — and when
`replan_count` has already reached `max_replans` the orchestrator does
not re-enter Plan but proceeds to Analyze with zero documents. -/
theorem c5_empty_validation_short_circuit (cfg : AgentConfig) (e : EnvInput) (s : RunState)
    (hph : s.phase = WState.validateResults)
    (hres : s.results = [])
    (hrep : cfg.maxReplans ≤ s.replanCount) :
    (∀ (resp : OracleResp VFields) (tok : Nat), validateModel [] resp tok =
      (⟨some false, 0, some ["No results retrieved - need to expand search"], "replan"⟩,
       ⟨"validate", 0⟩)) ∧
    (workflowStep cfg e s).phase = WState.analyze ∧
    (workflowStep cfg e s).results = [] ∧
    (workflowStep cfg e s).log = s.log ++ [⟨"validate", 0⟩] := by
  refine ⟨fun resp tok => rfl, ?_⟩
  simp only [workflowStep, hph, stepValidate, hres, validateModel, List.isEmpty_nil, if_true]
  split_ifs with h1 h2 h3
  · exact absurd h1.2 (by omega)
  · exact absurd h1.2 (by omega)
  · exact absurd h3.1 (by decide)
  · exact ⟨rfl, rfl, rfl⟩

/-- Witness for C5 at a concrete state with the ceiling reached. -/
theorem c5_empty_validation_short_circuit_witness :
    ({ initState with phase := WState.validateResults, replanCount := 2 } : RunState).phase
        = WState.validateResults ∧
    ({ initState with phase := WState.validateResults, replanCount := 2 } : RunState).results
        = [] ∧
    defaultCfg.maxReplans ≤
      ({ initState with phase := WState.validateResults, replanCount := 2 } : RunState).replanCount ∧
    ((∀ (resp : OracleResp VFields) (tok : Nat), validateModel [] resp tok =
        (⟨some false, 0, some ["No results retrieved - need to expand search"], "replan"⟩,
         ⟨"validate", 0⟩)) ∧
      (workflowStep defaultCfg envDefault
        { initState with phase := WState.validateResults, replanCount := 2 }).phase
          = WState.analyze ∧
      (workflowStep defaultCfg envDefault
        { initState with phase := WState.validateResults, replanCount := 2 }).results = [] ∧
      (workflowStep defaultCfg envDefault
        { initState with phase := WState.validateResults, replanCount := 2 }).log =
        ({ initState with phase := WState.validateResults, replanCount := 2 } : RunState).log
          ++ [⟨"validate", 0⟩]) :=
  ⟨rfl, rfl, by decide,
   c5_empty_validation_short_circuit defaultCfg envDefault
     { initState with phase := WState.validateResults, replanCount := 2 }
     rfl rfl (by decide)⟩

/-- C7: whenever `refine` actually reaches its oracle call (no
stagnation short-circuit, confidence not above 0.85) and the call
returns `success=False`, the refinement comes back with
`refinement_needed=False` and a reason naming the API error, with a
zero-token audit record and no exception. -/
theorem c7_refine_api_failure_fallback (query : String) (a : AnalysisR)
    (prevConf : Option ℚ) (iterCount : Nat) (tok : Nat)
    (hstag : ∀ p, prevConf = some p → ¬(a.confidence - p < 1/20 ∧ 0 < iterCount))
    (hconf : a.confidence ≤ 17/20) :
    refineModel query a prevConf iterCount OracleResp.fail tok =
      (⟨false, "API error - skipping refinement to avoid invalid state", []⟩,
       ⟨"refine", 0⟩) ∧
    containsSub "API error".toList
      (refineModel query a prevConf iterCount OracleResp.fail tok).1.reason.toList = true := by
  have h1 : refineModel query a prevConf iterCount OracleResp.fail tok =
      (⟨false, "API error - skipping refinement to avoid invalid state", []⟩,
       ⟨"refine", 0⟩) := by
    cases prevConf with
    | none =>
      simp only [refineModel]
      rw [if_neg (not_lt.mpr hconf)]
      rfl
    | some p =>
      simp only [refineModel]
      rw [if_neg (hstag p rfl), if_neg (not_lt.mpr hconf)]
      rfl
  refine ⟨h1, ?_⟩
  rw [h1]
  decide

/-- Witness for C7 at a concrete analysis and oracle failure. -/
theorem c7_refine_api_failure_fallback_witness :
    (∀ p, (none : Option ℚ) = some p →
        ¬((⟨1/2, none⟩ : AnalysisR).confidence - p < 1/20 ∧ 0 < 0)) ∧
    (⟨1/2, none⟩ : AnalysisR).confidence ≤ 17/20 ∧
    (refineModel "q" ⟨1/2, none⟩ none 0 OracleResp.fail 0 =
      (⟨false, "API error - skipping refinement to avoid invalid state", []⟩,
       ⟨"refine", 0⟩) ∧
     containsSub "API error".toList
       (refineModel "q" ⟨1/2, none⟩ none 0 OracleResp.fail 0).1.reason.toList = true) :=
 by
  refine ⟨?_, ?_, ?_⟩
  · intro p h
    simp at h
  · with_unfolding_all decide
  · exact c7_refine_api_failure_fallback "q" ⟨1/2, none⟩ none 0 0
      (fun p h => by simp at h) (by with_unfolding_all decide)

theorem countLog_append_single (l : List StepRec) (r : StepRec) (t : String) :
    countLog (l ++ [r]) t = countLog l t + (if r.stype = t then 1 else 0) := by
  simp only [countLog, List.filter_append, List.length_append]
  congr 1
  by_cases h : r.stype = t <;> simp [List.filter_cons, h]

/-- C9 counterexample: at transition 11 of the `envLoopScript` run the
last two Analyze confidences are 0.5 and 0.5 (delta 0, below the 0.05
threshold) and one refinement iteration has already occurred, yet —
because the preceding critique failed — the next Refine step is forced:
it executes another retrieval-and-reanalysis round (one more execute
and one more analyze audit record) and does not transition to
Critique. -/
theorem c9_stagnation_bypassed_counterexample :
    (loopRun 11).phase = WState.refine ∧
    (loopRun 11).prevConfidence = some (1/2) ∧
    (loopRun 11).analysis = some ⟨1/2, some "medium"⟩ ∧
    (loopRun 11).confidenceHistory = [2/5, 1/2, 1/2] ∧
    1 ≤ (loopRun 11).iterationCount ∧
    countLog (loopRun 12).log "analyze" = countLog (loopRun 11).log "analyze" + 1 ∧
    countLog (loopRun 12).log "execute" = countLog (loopRun 11).log "execute" + 1 ∧
    (loopRun 12).phase ≠ WState.critique := by
  with_unfolding_all decide

/-- C9 amended: when the Refine step is entered with stagnating
confidence (two consecutive Analyze confidences differing by less than
0.05) after at least one iteration, and no pending refinement was
staged by ValidateResults and no failed critique is forcing a rework,
the step performs no further retrieval or re-analysis and the
orchestrator transitions to Critique. -/
theorem c9_stagnation_guard (cfg : AgentConfig) (e : EnvInput) (s : RunState)
    (a : AnalysisR) (p : ℚ)
    (hph : s.phase = WState.refine)
    (ha : s.analysis = some a)
    (hp : s.prevConfidence = some p)
    (hd1 : a.confidence - p < 1/20)
    (hd2 : p - a.confidence < 1/20)
    (hi : 1 ≤ s.iterationCount)
    (hpend : s.pendingRefinement = none)
    (hcrit : critFailedB s = false) :
    (workflowStep cfg e s).phase = WState.critique ∧
    (workflowStep cfg e s).results = s.results ∧
    countLog (workflowStep cfg e s).log "analyze" = countLog s.log "analyze" ∧
    countLog (workflowStep cfg e s).log "execute" = countLog s.log "execute" := by
  have hrm : refineModel "query" a s.prevConfidence s.iterationCount e.refi e.rTokens =
      (⟨false, "Confidence not improving - proceeding to avoid loops", []⟩,
       ⟨"refine", 0⟩) := by
    rw [hp]
    simp only [refineModel]
    rw [if_pos ⟨hd1, hi⟩]
  have hcfB : ∀ x : RunState, x.critiqueResult = s.critiqueResult →
      critFailedB x = false := by
    intro x hx
    unfold critFailedB at hcrit ⊢
    rw [hx]
    exact hcrit
  simp only [workflowStep, hph, stepRefine, hpend, ha, hrm]
  by_cases hiter : cfg.maxIterations < s.iterationCount + 1
  · rw [if_pos hiter]
    exact ⟨rfl, rfl, rfl, rfl⟩
  · rw [if_neg hiter,
      hcfB ⟨WState.refine, s.results, some a, s.summary, s.critiqueResult,
        s.iterationCount, s.replanCount, s.critiqueRefineLoopCount, s.prevConfidence,
        s.confidenceHistory, none, s.log ++ [(⟨"refine", 0⟩ : StepRec)]⟩ rfl]
    simp only [Bool.false_eq_true, if_false]
    simp [countLog_append_single]

/-- Witness for C9 at a concrete stagnating refine state. -/
theorem c9_stagnation_guard_witness :
    stagState.phase = WState.refine ∧
    (1 : ℚ)/2 - 1/2 < 1/20 ∧
    ((workflowStep defaultCfg envDefault stagState).phase = WState.critique ∧
     (workflowStep defaultCfg envDefault stagState).results = stagState.results ∧
     countLog (workflowStep defaultCfg envDefault stagState).log "analyze" =
       countLog stagState.log "analyze" ∧
     countLog (workflowStep defaultCfg envDefault stagState).log "execute" =
       countLog stagState.log "execute") := by
  refine ⟨rfl, ?_, ?_⟩
  · with_unfolding_all decide
  · exact c9_stagnation_guard defaultCfg envDefault stagState ⟨1/2, some "medium"⟩ (1/2)
      rfl rfl rfl (by with_unfolding_all decide) (by with_unfolding_all decide)
      (by decide) rfl rfl

theorem pySplitF_ne_nil (fuel : Nat) (sep s : List Char) : pySplitF fuel sep s ≠ [] := by
  cases fuel with
  | zero => simp [pySplitF]
  | succ n =>
    simp only [pySplitF]
    cases splitFirst sep s with
    | none => simp
    | some p => simp

theorem extractFenced_ok (tag cs : List Char) (h : containsSub tag cs = true) :
    ∃ r, extractFenced tag cs = Except.ok r := by
  unfold containsSub at h
  rcases hsf : splitFirst tag cs with _ | ⟨b, a⟩
  · rw [hsf] at h; simp at h
  · unfold extractFenced pySplit
    show ∃ r, (match pySplitF (cs.length + 1) tag cs with
      | _ :: x :: _ => Except.ok (pyStrip ((pySplit "```".toList x).headD []))
      | _ => Except.error "IndexError") = Except.ok r
    have hps : pySplitF (cs.length + 1) tag cs = b :: pySplitF cs.length tag a := by
      simp only [pySplitF, hsf]
    rw [hps]
    rcases htail : pySplitF cs.length tag a with _ | ⟨y, ys⟩
    · exact absurd htail (pySplitF_ne_nil _ _ _)
    · exact ⟨_, rfl⟩

theorem stripFences_ok (cs : List Char) : ∃ r, stripFences cs = Except.ok r := by
  unfold stripFences
  split_ifs with h1 h2
  · exact extractFenced_ok _ _ h1
  · exact extractFenced_ok _ _ h2
  · exact ⟨cs, rfl⟩

theorem stripFences_eq_strippedOf (content : String) :
    stripFences content.toList = Except.ok (strippedOf content) := by
  obtain ⟨r, hr⟩ := stripFences_ok content.toList
  rw [hr]
  unfold strippedOf
  rw [hr]

theorem parseJsonResponse_eq (content : String) :
    parseJsonResponse content =
      (match jsonLoads (strippedOf content) with
       | some j => Except.ok j
       | none =>
         match braceSlice (strippedOf content) with
         | some seg =>
           match jsonLoads seg with
           | some j => Except.ok j
           | none => Except.ok (JVal.obj (JMembers.cons "raw_response"
               (JVal.str (String.mk (strippedOf content))) JMembers.nil))
         | none => Except.ok (JVal.obj (JMembers.cons "raw_response"
             (JVal.str (String.mk (strippedOf content))) JMembers.nil))) := by
  unfold parseJsonResponse
  rw [stripFences_eq_strippedOf]

/-- C10 counterexample: on the content `` "```\nhello\n```" `` none of
the three recovery stages yields valid JSON (there is no brace at all),
and `parse_json_response` wraps the fence-stripped text `"hello"` under
`raw_response`, not the original content as the claim states. -/
theorem c10_raw_wrap_counterexample :
    jsonLoads ("```\nhello\n```").toList = none ∧
    jsonLoads (strippedOf "```\nhello\n```") = none ∧
    braceSlice ("```\nhello\n```").toList = none ∧
    braceSlice (strippedOf "```\nhello\n```") = none ∧
    parseJsonResponse "```\nhello\n```" =
      Except.ok (JVal.obj (JMembers.cons "raw_response" (JVal.str "hello") JMembers.nil)) ∧
    parseJsonResponse "```\nhello\n```" ≠
      Except.ok (JVal.obj (JMembers.cons "raw_response"
        (JVal.str "```\nhello\n```") JMembers.nil)) := by
  with_unfolding_all decide

/-- C10 amended: `parse_json_response` always returns normally (the
only indexing it performs is guarded by the substring test), and when
neither parsing the fence-stripped text nor its first-brace-to-last-
brace substring yields valid JSON, the result is exactly
`\x7b"raw_response": stripped\x7d` where `stripped` is the text after
fence-stripping — the original text when no fence was present. -/
theorem c10_total_wraps_stripped (content : String)
    (h1 : jsonLoads (strippedOf content) = none)
    (h2 : ∀ seg, braceSlice (strippedOf content) = some seg → jsonLoads seg = none) :
    (parseJsonResponse content).isOk = true ∧
    parseJsonResponse content =
      Except.ok (JVal.obj (JMembers.cons "raw_response"
        (JVal.str (String.mk (strippedOf content))) JMembers.nil)) := by
  have key : parseJsonResponse content =
      Except.ok (JVal.obj (JMembers.cons "raw_response"
        (JVal.str (String.mk (strippedOf content))) JMembers.nil)) := by
    rw [parseJsonResponse_eq, h1]
    cases hb : braceSlice (strippedOf content) with
    | none => rfl
    | some seg =>
      have hs := h2 seg hb
      show (match jsonLoads seg with
        | some j => Except.ok j
        | none => Except.ok (JVal.obj (JMembers.cons "raw_response"
            (JVal.str (String.mk (strippedOf content))) JMembers.nil))) =
        Except.ok (JVal.obj (JMembers.cons "raw_response"
          (JVal.str (String.mk (strippedOf content))) JMembers.nil))
      rw [hs]
  exact ⟨by rw [key]; rfl, key⟩

/-- Witness for C10 at a concrete unparseable content. -/
theorem c10_total_wraps_stripped_witness :
    jsonLoads (strippedOf "not json") = none ∧
    ((parseJsonResponse "not json").isOk = true ∧
     parseJsonResponse "not json" =
       Except.ok (JVal.obj (JMembers.cons "raw_response"
         (JVal.str (String.mk (strippedOf "not json"))) JMembers.nil))) := by
  refine ⟨?_, ?_⟩
  · with_unfolding_all decide
  · exact c10_total_wraps_stripped "not json" (by with_unfolding_all decide)
      (fun seg h => by
        rw [show braceSlice (strippedOf "not json") = none by with_unfolding_all decide] at h
        cases h)

/-- C6 counterexample: the claim's recovery order ("parse the text
as-is" first) disagrees with the code on contents that are valid JSON
but contain a fence marker inside a string literal: on
`\x7b"a": "```"\x7d` direct parsing succeeds, yet `parse_json_response`
strips at the backticks first and ends up wrapping the mutilated
remainder under `raw_response`. -/
theorem c6_recovery_order_counterexample :
    jsonLoads ("\x7b\"a\": \"```\"\x7d").toList =
      some (JVal.obj (JMembers.cons "a" (JVal.str "```") JMembers.nil)) ∧
    specRecoveryChain "\x7b\"a\": \"```\"\x7d" =
      JVal.obj (JMembers.cons "a" (JVal.str "```") JMembers.nil) ∧
    parseJsonResponse "\x7b\"a\": \"```\"\x7d" =
      Except.ok (JVal.obj (JMembers.cons "raw_response" (JVal.str "\"\x7d") JMembers.nil)) ∧
    parseJsonResponse "\x7b\"a\": \"```\"\x7d" ≠
      Except.ok (specRecoveryChain "\x7b\"a\": \"```\"\x7d") := by
  with_unfolding_all decide

/-- C6 amended: the recovery chain strips a fenced code block first
when one is present and only then parses, falling back to the
brace-window substring of the stripped text and finally to wrapping the
stripped text under `raw_response`; on the fenced content
`` "```json\n\x7b\"confidence\":0.9\x7d\n```" `` the parser returns
exactly `\x7b"confidence": 0.9\x7d`. -/
theorem c6_recovery_amended (content : String) :
    parseJsonResponse content = Except.ok (amendedRecoveryChain content) ∧
    parseJsonResponse "```json\n\x7b\"confidence\":0.9\x7d\n```" =
      Except.ok (JVal.obj (JMembers.cons "confidence" (JVal.num (9/10)) JMembers.nil)) := by
  constructor
  · rw [parseJsonResponse_eq]
    simp only [amendedRecoveryChain]
    generalize strippedOf content = cs
    cases jsonLoads cs with
    | some j => rfl
    | none =>
      cases braceSlice cs with
      | none => rfl
      | some seg =>
        show (match jsonLoads seg with
          | some j => Except.ok j
          | none => Except.ok (JVal.obj (JMembers.cons "raw_response"
              (JVal.str (String.mk cs)) JMembers.nil))) =
          Except.ok (match jsonLoads seg with
          | some j => j
          | none => JVal.obj (JMembers.cons "raw_response"
              (JVal.str (String.mk cs)) JMembers.nil))
        cases jsonLoads seg <;> rfl
  · with_unfolding_all decide

/-- C8 counterexample: `hybrid_search` scales each score list by its
maximum rather than min-max normalizing it.  With semantic scores
5, 4.2, 4 and keyword scores 0, 0.4, 1 at `alpha = 0.5` the code
returns the order [2, 1, 0], but under the specification's min-max
normalization document 1 scores strictly below document 0, so the
output is not ordered by descending min-max combined score. -/
theorem c8_minmax_order_counterexample :
    hybridSearch [0, 1, 2] [(0, 5), (1, 21/5), (2, 4)] [(0, 0), (1, 2/5), (2, 1)] 3 (1/2)
      = [2, 1, 0] ∧
    specHybridScore [(0, 5), (1, 21/5), (2, 4)] [(0, 0), (1, 2/5), (2, 1)] (1/2) 1 <
      specHybridScore [(0, 5), (1, 21/5), (2, 4)] [(0, 0), (1, 2/5), (2, 1)] (1/2) 0 ∧
    ¬ List.Sorted (fun a b =>
        specHybridScore [(0, 5), (1, 21/5), (2, 4)] [(0, 0), (1, 2/5), (2, 1)] (1/2) b ≤
          specHybridScore [(0, 5), (1, 21/5), (2, 4)] [(0, 0), (1, 2/5), (2, 1)] (1/2) a)
      (hybridSearch [0, 1, 2] [(0, 5), (1, 21/5), (2, 4)] [(0, 0), (1, 2/5), (2, 1)] 3 (1/2)) := by
  refine ⟨?_, ?_, ?_⟩ <;> with_unfolding_all decide

/-- C8 amended: for every corpus, sub-search outcome, `k` and `alpha`,
`hybrid_search` returns at most `k` documents ordered by descending
combined score `alpha * s_sem + (1 - alpha) * s_key`, where `s_sem` and
`s_key` are the raw scores scaled by the (positive) maximum of their
respective score lists — divide-by-max scaling, not min-max
normalization. -/
theorem c8_hybrid_sorted_truncated (data : List Nat) (semRes keyRes : List (Nat × ℚ))
    (topK : Nat) (alpha : ℚ) :
    (hybridSearch data semRes keyRes topK alpha).length ≤ topK ∧
    List.Sorted (fun a b => hybridScore semRes keyRes alpha b ≤ hybridScore semRes keyRes alpha a)
      (hybridSearch data semRes keyRes topK alpha) := by
  have htot : IsTotal Nat (fun a b =>
      hybridScore semRes keyRes alpha b ≤ hybridScore semRes keyRes alpha a) :=
    ⟨fun a b => le_total (hybridScore semRes keyRes alpha b) (hybridScore semRes keyRes alpha a)⟩
  have htr : IsTrans Nat (fun a b =>
      hybridScore semRes keyRes alpha b ≤ hybridScore semRes keyRes alpha a) :=
    ⟨fun _ _ _ hab hbc => le_trans hbc hab⟩
  constructor
  · simp only [hybridSearch]
    exact List.length_take_le _ _
  · simp only [hybridSearch]
    have hs := @List.sorted_insertionSort Nat
      (fun a b => hybridScore semRes keyRes alpha b ≤ hybridScore semRes keyRes alpha a)
      _ htot htr (dedupById (semRes.map Prod.fst ++ keyRes.map Prod.fst))
    exact (List.Pairwise.filter _ hs).sublist (List.take_sublist _ _)
